import Mathlib

/-!
Shallow embedding of the magelib build-pipeline core: the artifact store
(ctx/artifacts.go), the per-stage module container (modules package), and
the tar archiving engine (internal/modules/archive/tar.go). Go maps are
embedded as association lists kept in insertion order (one admissible
iteration order of a Go map); machine-level I/O is embedded as explicit
state passing over a filesystem snapshot. External collaborators that the
source treats as interfaces (yaml decoding, template rendering, the module
registry table, the filesystem) are parameters of the embedded operations.
-/

set_option autoImplicit false
set_option maxRecDepth 4000

namespace Magelib

/-- One produced file record: `Artifact` in ctx/artifacts.go. -/
structure Artifact where
  arch : String
  filename : String
  format : Nat
  location : String
  name : String
  os : String
deriving Repr, DecidableEq

/-- Artifact format enumeration (ctx/artifacts.go iota constants). -/
def FormatRaw : Nat := 1

/-- FormatGZip constant of ctx/artifacts.go. -/
def FormatGZip : Nat := 2

/-- FormatUPX constant of ctx/artifacts.go. -/
def FormatUPX : Nat := 3

/-- FormatTar constant of ctx/artifacts.go. -/
def FormatTar : Nat := 4

/-- FormatZip constant of ctx/artifacts.go. -/
def FormatZip : Nat := 5

/-- Model of `Artifact.OsArch` (ctx/artifacts.go): the "os-arch" key string. -/
def Artifact.osArch (a : Artifact) : String := a.os ++ "-" ++ a.arch

/-- Model of `Artifacts.ByName` (ctx/artifacts.go): stable sub-sequence of the store
whose artifacts carry the given build name. -/
def byName (arts : List Artifact) (n : String) : List Artifact :=
  arts.filter (fun a => a.name == n)

/-- Modelled from the spec: the Build Context (`ctx.Context` is not under
src/). Per the spec it carries project name, version, target directory, the
publish flag and the artifact store, and is threaded through the pipeline;
mutation is embedded as state passing. -/
structure Context where
  projectName : String
  version : String
  targetDir : String
  publish : Bool
  artifacts : List Artifact
deriving Repr, DecidableEq

/-! ## Module container (modules package, src/unnamed/part_000) -/

/-- Yaml node kinds distinguished by the module container. -/
inductive YamlKind where
  | scalar
  | sequence
  | mapping
  | document
  | other
deriving Repr, DecidableEq

/-- Modelled from the spec: the configuration tree node delivered by the
external yaml library (`yaml.Node`): a typed node with a scalar value and
child nodes (a mapping node holds alternating key/value children). -/
inductive YamlNode where
  | node (kind : YamlKind) (value : String) (content : List YamlNode)

/-- Kind accessor of a yaml node. -/
def YamlNode.kind : YamlNode → YamlKind
  | .node k _ _ => k

/-- Scalar value accessor of a yaml node. -/
def YamlNode.value : YamlNode → String
  | .node _ v _ => v

/-- Children accessor of a yaml node. -/
def YamlNode.content : YamlNode → List YamlNode
  | .node _ _ c => c

/-- The `Pluggable` capability: `Run(context) -> error`, with context
mutation embedded as state passing. -/
def Pluggable : Type := Context → Except String Context

/-- A registry factory: produces a fresh default-configured module. -/
def PFactory : Type := Unit → Pluggable

/-- The process-wide registry lookup `LookupModule`, as a function from a
stage-qualified kind to its factory. -/
def Registry : Type := String → Option PFactory

/-- Modelled from the spec: the external yaml decode-onto-default operation
(`node.Decode(targetMod)`), kept as a parameter of the container. -/
def Decoder : Type := YamlNode → Pluggable → Except String Pluggable

/-- Model of `Module` (part_000): a type tag paired with its pluggable instance. -/
structure Module where
  type : String
  pluggable : Pluggable

/-- Structured counterparts of the module container's `fmt.Errorf` errors. -/
inductive ModError where
  | notSequence (stage : String)
  | notMap (idx : Nat) (stage : String)
  | typeError (stage : String) (idx : Nat) (msg : String)
  | unknownModule (stage itemType : String)
  | alreadyLoaded (kind : String)
  | decodeError (kind : String) (msg : String)
  | runFailed (stage itemType : String) (msg : String)
deriving Repr, DecidableEq

/-- Model of `Modules` (part_000): one stage's module container. The Go `loaded`
map is embedded as a list of kinds in insertion order. -/
structure Modules where
  stage : String
  skipFn : Option (Context → Bool)
  modules : List Module
  loaded : List String

/-- Model of `NewModules` (part_000): fresh container of a stage. -/
def NewModules (stage : String) : Modules :=
  { stage := stage, skipFn := none, modules := [], loaded := [] }

/-- The probe loop of `Modules.Add` (part_000 lines 88-95): try the
stage-qualified kind first, then the wildcard kind. -/
def resolveKind (reg : Registry) (stage itemType : String) :
    Option (String × PFactory) :=
  match reg (stage ++ ":" ++ itemType) with
  | some f => some (stage ++ ":" ++ itemType, f)
  | none =>
    match reg ("*:" ++ itemType) with
    | some f => some ("*:" ++ itemType, f)
    | none => none

/-- Model of `Modules.isLoaded` (part_000): membership in the loaded-kind set. -/
def Modules.isLoaded (mod : Modules) (kind : String) : Bool :=
  mod.loaded.contains kind

/-- Model of `Modules.flagLoaded` (part_000): mark a kind loaded (set insert). -/
def Modules.flagLoaded (mod : Modules) (kind : String) : Modules :=
  { mod with
    loaded := if mod.loaded.contains kind then mod.loaded else mod.loaded ++ [kind] }

/-- Model of `Modules.Add` (part_000 lines 81-121): resolve the kind, enforce the
once guard, instantiate via the factory, decode the optional node onto the
default, append the module and flag the kind loaded. -/
def Modules.Add (reg : Registry) (decode : Decoder) (mod : Modules)
    (itemType : String) (node : Option YamlNode) (once : Bool) :
    Except ModError Modules :=
  match resolveKind reg mod.stage itemType with
  | none => .error (.unknownModule mod.stage itemType)
  | some (kind, factory) =>
    if once && mod.isLoaded kind then .error (.alreadyLoaded kind)
    else
      match node with
      | some n =>
        match decode n (factory ()) with
        | .error e => .error (.decodeError kind e)
        | .ok tm =>
          .ok (({ mod with modules := mod.modules ++ [Module.mk itemType tm] }).flagLoaded kind)
      | none =>
        .ok (({ mod with modules := mod.modules ++ [Module.mk itemType (factory ())] }).flagLoaded kind)

/-- Model of `getType` (part_000 lines 188-202): scan a mapping node's alternating
key/value children for the `type` key. A yaml mapping node always carries
an even number of children, which the recursion relies on. -/
def getType : List YamlNode → Except String String
  | key :: val :: rest =>
    if key.value = "type" then .ok val.value else getType rest
  | _ => .error "type not defined"

/-- The indexed entry loop of `Modules.UnmarshalYAML` (part_000 lines
48-67): each child must be a mapping with a `type` field, then is added
with `once := false`. -/
def unmarshalLoop (reg : Registry) (decode : Decoder) :
    Modules → Nat → List YamlNode → Except ModError Modules
  | mod, _, [] => .ok mod
  | mod, idx, child :: rest =>
    if child.kind ≠ YamlKind.mapping then .error (.notMap (idx + 1) mod.stage)
    else
      match getType child.content with
      | .error e => .error (.typeError mod.stage (idx + 1) e)
      | .ok t =>
        match mod.Add reg decode t (some child) false with
        | .error e => .error e
        | .ok mod2 => unmarshalLoop reg decode mod2 (idx + 1) rest

/-- Model of `Modules.UnmarshalYAML` (part_000 lines 43-70). -/
def Modules.UnmarshalYAML (reg : Registry) (decode : Decoder) (mod : Modules)
    (node : YamlNode) : Except ModError Modules :=
  if node.kind ≠ YamlKind.sequence then .error (.notSequence mod.stage)
  else unmarshalLoop reg decode mod 0 node.content

/-- The inner module loop `Modules.run` (part_000 lines 172-186): run each
module in order, wrapping a failure with stage and type. -/
def runList (stage : String) : List Module → Context → Except ModError Context
  | [], c => .ok c
  | m :: rest, c =>
    match m.pluggable c with
    | .error e => .error (.runFailed stage m.type e)
    | .ok c2 => runList stage rest c2

/-- Model of `Modules.Run` (part_000 lines 156-170): evaluate the skip predicate;
when it fires, run nothing and succeed, otherwise run all modules. -/
def Modules.Run (mod : Modules) (context : Context) : Except ModError Context :=
  match mod.skipFn with
  | some f => if f context then .ok context else runList mod.stage mod.modules context
  | none => runList mod.stage mod.modules context

/-! ## Archiving engine (internal/modules/archive/tar.go) -/

/-- Model of `Tar` module configuration (tar.go). The Compression strategy lives
outside src/; per the spec it contributes a file extension to templating
and a pass-through stream wrapper, so it is embedded by its extension. -/
structure Tar where
  builds : List String
  commonDir : String
  compressionExt : String
  files : List String
  name : String
  output : String
  skip : List String
deriving Repr, DecidableEq

/-- Model of `NewTar` factory defaults (tar.go lines 56-66); the default compression
is `CompressNONE`, whose extension is empty. -/
def NewTar : Tar :=
  { builds := ["default"]
    commonDir := "\x7b\x7b.ProjectName\x7d\x7d-\x7b\x7b.Version\x7d\x7d-\x7b\x7b.OS\x7d\x7d-\x7b\x7b.Arch\x7d\x7d"
    compressionExt := ""
    files := ["README*"]
    name := "archive"
    output := "\x7b\x7b.ProjectName\x7d\x7d-\x7b\x7b.Version\x7d\x7d-\x7b\x7b.OS\x7d\x7d-\x7b\x7b.Arch\x7d\x7d.tar\x7b\x7b.Ext\x7d\x7d"
    skip := [] }

/-- The `builds[osarch] = append(*builds[osarch], art)` step of newRuntime
(tar.go lines 100-103) on the insertion-ordered association list: create
the group at the moment its first artifact arrives, else append. -/
def addToGroup : List (String × List Artifact) → String → Artifact →
    List (String × List Artifact)
  | [], k, a => [(k, [a])]
  | (k2, g) :: rest, k, a =>
    if k2 = k then (k2, g ++ [a]) :: rest
    else (k2, g) :: addToGroup rest k a

/-- Go map indexing `builds[k]` on the association list. -/
def lookupGroup : List (String × List Artifact) → String → Option (List Artifact)
  | [], _ => none
  | (k2, g) :: rest, k => if k2 = k then some g else lookupGroup rest k

/-- The grouping loop of `Tar.newRuntime` (tar.go lines 85-105): all
artifacts of the configured build names, skipping excluded os-arch pairs,
grouped by os-arch. -/
def groupArtifacts (tar : Tar) (arts : List Artifact) :
    List (String × List Artifact) :=
  tar.builds.foldl
    (fun builds build =>
      (byName arts build).foldl
        (fun builds art =>
          if tar.skip.contains art.osArch then builds
          else addToGroup builds art.osArch art)
        builds)
    []

/-- Structured counterparts of the archiving engine's errors (tar.go). -/
inductive TarError where
  | noBuildsFound
  | invalidGoodRef (good : String)
  | noTargetsFound (goodTargets : List String)
  | missingTargets (bad : String) (goodTargets : List String)
  | emptyTarget (osarch : String)
  | renderError (source : String)
  | createError (path : String)
  | statError (path : String)
  | headerError (missed : Nat)
  | copyError (source destpath : String) (written reported : Nat)
deriving Repr, DecidableEq

/-- Go map write `targets[k] = v` on an insertion-ordered association
list: later writes replace the value of an existing key. -/
def setKey : List (String × Bool) → String → Bool → List (String × Bool)
  | [], k, v => [(k, v)]
  | (k2, v2) :: rest, k, v =>
    if k2 = k then (k2, v) :: rest else (k2, v2) :: setKey rest k v

/-- Insertion step of an ascending string sort (`sort.Strings`). -/
def insertSorted (x : String) : List String → List String
  | [] => [x]
  | y :: ys =>
    match compare x y with
    | .gt => y :: insertSorted x ys
    | _ => x :: y :: ys

/-- Ascending string sort, the order produced by `sort.Strings`. -/
def sortStrings (l : List String) : List String := l.foldr insertSorted []

/-- Model of `errNumTargets` (tar.go lines 371-418) as a structured error value: the
good group's artifact os-arch keys are flagged true, the bad group's keys
are flagged false, and the sorted true keys are reported as the targets
the bad group misses. -/
def errNumTargets (bad good : String) (builds : List (String × List Artifact)) :
    TarError :=
  if builds.length = 0 then .noBuildsFound
  else
    match lookupGroup builds good with
    | none => .invalidGoodRef good
    | some g =>
      if g.length = 0 then .invalidGoodRef good
      else
        let t1 : List (String × Bool) :=
          g.foldl (fun m a => setKey m (Artifact.osArch a) true) []
        let t2 : List (String × Bool) :=
          match lookupGroup builds bad with
          | some b =>
            if 0 < b.length then b.foldl (fun m a => setKey m (Artifact.osArch a) false) t1
            else t1
          | none => t1
        let goodTargets := sortStrings ((t2.filter Prod.snd).map Prod.fst)
        let badTargets := sortStrings ((t2.filter (fun p => !Prod.snd p)).map Prod.fst)
        if badTargets.length = 0 then .noTargetsFound goodTargets
        else .missingTargets bad goodTargets

/-- The count-consistency loop of `Tar.newRuntime` (tar.go lines 107-123):
every group's artifact count is compared against the first group's count;
the group with fewer artifacts is reported as bad. The first argument is
the whole map, handed to `errNumTargets` for diagnostics. -/
def checkLoop (builds : List (String × List Artifact)) :
    List (String × List Artifact) → Nat → String → Option TarError
  | [], _, _ => none
  | (osarch, g) :: rest, numTargets, lastosarch =>
    if numTargets = 0 then checkLoop builds rest g.length osarch
    else if numTargets < g.length then some (errNumTargets lastosarch osarch builds)
    else if g.length < numTargets then some (errNumTargets osarch lastosarch builds)
    else checkLoop builds rest numTargets lastosarch

/-- Model of `tarRuntime` (tar.go lines 68-72). -/
structure TarRuntime where
  tar : Tar
  context : Context
  targets : List (String × List Artifact)
deriving Repr, DecidableEq

/-- Model of `Tar.newRuntime` (tar.go lines 84-130): group, validate, wrap. -/
def newRuntime (tar : Tar) (context : Context) : Except TarError TarRuntime :=
  let builds := groupArtifacts tar context.artifacts
  match checkLoop builds builds 0 "" with
  | some e => .error e
  | none => .ok { tar := tar, context := context, targets := builds }

/-! ### Path arithmetic (Go `path` package operations used by tar.go) -/

/-- Splitting a character list on the slash separator, the behavior of
`strings.Split(s, "/")`: empty fields are kept. -/
def splitSlash : List Char → List Char → List String
  | [], acc => [String.mk acc.reverse]
  | c :: rest, acc =>
    if c = '/' then String.mk acc.reverse :: splitSlash rest []
    else splitSlash rest (c :: acc)

/-- Whether a path is rooted (begins with a slash). -/
def isRooted (p : String) : Bool :=
  match p.toList with
  | c :: _ => c = '/'
  | [] => false

/-- Whether the first string begins with the second (`strings.HasPrefix`),
structurally over the character lists. -/
def listLeading : List Char → List Char → Bool
  | [], _ => true
  | _ :: _, [] => false
  | a :: as, b :: bs => a = b && listLeading as bs

/-- Model of `strings.HasPrefix s pre`. -/
def leadsWith (s pre : String) : Bool := listLeading pre.toList s.toList

/-- Go `path.Clean`: drop empty and `.` elements, resolve `..`, keep the
rooted marker, with `.` for an empty result. -/
def pathClean (p : String) : String :=
  if p = "" then "."
  else
    let rooted := isRooted p
    let comps := splitSlash p.toList []
    let out := comps.foldl
      (fun acc c =>
        if c = "" || c = "." then acc
        else if c = ".." then
          match acc with
          | [] => if rooted then [] else [".."]
          | top :: rest => if top = ".." then c :: top :: rest else rest
        else c :: acc)
      []
    let s := String.intercalate "/" out.reverse
    if rooted then "/" ++ s
    else if s = "" then "." else s

/-- Go `path.Dir`: the cleaned portion before the final slash, `.` when
there is no slash. -/
def pathDir (p : String) : String :=
  let cs := p.toList
  let tailLen := (cs.reverse.takeWhile (fun c => c != '/')).length
  if tailLen = cs.length then "."
  else pathClean (String.mk (cs.take (cs.length - tailLen)))

/-- Go `path.Join` on two elements: join from the first non-empty element
and clean. -/
def pathJoin (a b : String) : String :=
  if a ≠ "" then pathClean (a ++ "/" ++ b)
  else if b ≠ "" then pathClean b
  else ""

/-- Go `strings.TrimPrefix`. -/
def trimLeading (s pre : String) : String :=
  if leadsWith s pre then s.drop pre.length else s

/-! ### Tar writer byte accounting (Go `archive/tar`) -/

/-- The byte accounting of Go `archive/tar.Writer`: the bytes of the
current entry still owed after the last header. -/
structure TarWriter where
  remaining : Nat
deriving Repr, DecidableEq

/-- Model of `tar.Writer.WriteHeader`: flushing fails (missed bytes) when the
previous entry was not fully written; otherwise a new entry of the given
declared size begins. -/
def twWriteHeader (tw : TarWriter) (size : Nat) : Except Nat TarWriter :=
  if tw.remaining ≠ 0 then .error tw.remaining else .ok { remaining := size }

/-- Model of `tar.Writer.Write` of n bytes: fails (write too long) when the write
exceeds the declared entry size. -/
def twWrite (tw : TarWriter) (n : Nat) : Option TarWriter :=
  if n ≤ tw.remaining then some { remaining := tw.remaining - n } else none

/-- Model of `tar.Writer.Close`: fails when the final entry was not fully written.
In `singleTarget.run` this close is deferred and its error discarded. -/
def twClose (tw : TarWriter) : Except Nat Unit :=
  if tw.remaining ≠ 0 then .error tw.remaining else .ok ()

/-- Stat results for one path: the size `os.Stat` reports, the byte length
actually delivered when the file is read, and the directory flag. The two
sizes differ exactly when the file changes between stat and copy. -/
structure FileInfo where
  statSize : Nat
  content : Nat
  isDir : Bool
deriving Repr, DecidableEq

/-- The filesystem as the archiving engine sees it: stat (none embeds a
stat error), glob expansion, and create success. -/
structure Fs where
  stat : String → Option FileInfo
  glob : String → List String
  createOk : String → Bool

/-- Per-target archiving state of `singleTarget.run`: the tar writer
accounting plus the `DirsWritten` deduplication set. -/
structure ArchState where
  tw : TarWriter
  dirsWritten : List String
deriving Repr, DecidableEq

/-- Model of `singleTarget.writeDir` (tar.go lines 345-369): skip paths already
written, stat the target directory for header metadata, write one
directory header and record the path. -/
def writeDir (fs : Fs) (targetDir : String) (st : ArchState) (dirname : String) :
    Except TarError ArchState :=
  if st.dirsWritten.contains dirname then .ok st
  else
    match fs.stat targetDir with
    | none => .error (.statError targetDir)
    | some fi =>
      match twWriteHeader st.tw (if fi.isDir then 0 else fi.statSize) with
      | .error n => .error (.headerError n)
      | .ok tw => .ok { tw := tw, dirsWritten := st.dirsWritten ++ [dirname] }

/-- The ancestor collection loop of `writeDirs`: repeatedly apply
`path.Dir` until it yields `.`. Fuel makes the recursion structural; the
engine passes relative paths, for which each step shortens the path and
the fuel is ample (the Go loop would not terminate on rooted paths such as
`/`, which the engine never produces here). -/
def dirChain : Nat → String → List String
  | 0, _ => []
  | fuel + 1, p =>
    let d := pathDir p
    if d = "." then [] else d :: dirChain fuel d

/-- Model of `singleTarget.writeDirs` (tar.go lines 321-343): write every missing
ancestor directory from the root-most down. -/
def writeDirs (fs : Fs) (targetDir : String) (st : ArchState) (fullpath : String) :
    Except TarError ArchState :=
  if fullpath = "." then .ok st
  else
    let dirs := fullpath :: dirChain fullpath.length fullpath
    dirs.reverse.foldlM (writeDir fs targetDir) st

/-- Model of `singleTarget.writeFile` (tar.go lines 281-319): stat the source, write
a header carrying the reported size, then copy the source's bytes into the
entry. The error guard reproduces the code: it fires only when the copy
itself returns an error (e.g. write too long); a short copy passes. -/
def writeFile (fs : Fs) (tw : TarWriter) (destpath source : String) :
    Except TarError TarWriter :=
  match fs.stat source with
  | none => .error (.statError source)
  | some fi =>
    match twWriteHeader tw (if fi.isDir then 0 else fi.statSize) with
    | .error n => .error (.headerError n)
    | .ok tw1 =>
      match twWrite tw1 fi.content with
      | none => .error (.copyError source destpath (min fi.content fi.statSize) fi.statSize)
      | some tw2 => .ok tw2

/-- Model of `singleTarget.writeArtifact` (tar.go lines 249-259): archive path is
the common directory joined with the artifact path relative to its
location; missing ancestors first, then the file entry. -/
def writeArtifact (fs : Fs) (targetDir commonDir : String) (st : ArchState)
    (artifact : Artifact) : Except TarError ArchState :=
  let filename := pathJoin commonDir (trimLeading artifact.filename (artifact.location ++ "/"))
  match writeDirs fs targetDir st (pathDir filename) with
  | .error e => .error e
  | .ok st1 =>
    match writeFile fs st1.tw filename artifact.filename with
    | .error e => .error e
    | .ok tw => .ok { st1 with tw := tw }

/-- Model of `singleTarget.writeFileGlob` (tar.go lines 261-279): expand the glob
and write each match under the common directory. -/
def writeFileGlob (fs : Fs) (targetDir commonDir : String) (st : ArchState)
    (source : String) : Except TarError ArchState :=
  (fs.glob source).foldlM
    (fun st filename =>
      let fullfn := pathJoin commonDir filename
      match writeDirs fs targetDir st (pathDir fullfn) with
      | .error e => .error e
      | .ok st1 =>
        match writeFile fs st1.tw fullfn filename with
        | .error e => .error e
        | .ok tw => .ok { st1 with tw := tw })
    st

/-- Modelled from the spec: the fixed template variable set every path and
name template may reference (`modules.TemplateData` is not under src/):
project name, version, OS, arch, compression extension. -/
structure TemplateData where
  arch : String
  os : String
  projectName : String
  version : String
  ext : String
deriving Repr, DecidableEq

/-- Modelled from the spec: the external template renderer
`render(name, templateString, data)`, kept as a parameter. -/
def Render : Type := TemplateData → String → String → Except String String

/-- Model of `singleTarget` (tar.go lines 147-158). -/
structure SingleTarget where
  context : Context
  arch : String
  commonDir : String
  compressionExt : String
  dirsWritten : List String
  files : List String
  name : String
  os : String
  output : String
  targets : List Artifact

/-- Model of `tarRuntime.singleTarget` (tar.go lines 160-209): reject missing or
empty groups, then render the common directory and output templates and
clean the output path. -/
def TarRuntime.singleTarget (rt : TarRuntime) (render : Render) (osarch : String) :
    Except TarError SingleTarget :=
  match lookupGroup rt.targets osarch with
  | none => .error (.emptyTarget osarch)
  | some artifacts =>
    match artifacts with
    | [] => .error (.emptyTarget osarch)
    | first :: _ =>
      let td : TemplateData :=
        { arch := first.arch
          os := first.os
          projectName := rt.context.projectName
          version := rt.context.version
          ext := rt.tar.compressionExt }
      let nameBase := "archivetar-" ++ rt.tar.name ++ "-" ++ first.os ++ "-" ++ first.arch
      match render td (nameBase ++ "-commondir") rt.tar.commonDir with
      | .error _ => .error (.renderError rt.tar.commonDir)
      | .ok commonDir =>
        let outSource := pathJoin rt.context.targetDir rt.tar.output
        match render td (nameBase ++ "-output") outSource with
        | .error _ => .error (.renderError outSource)
        | .ok output =>
          .ok { context := rt.context
                arch := first.arch
                commonDir := commonDir
                compressionExt := rt.tar.compressionExt
                dirsWritten := []
                files := rt.tar.files
                name := rt.tar.name
                os := first.os
                output := pathClean output
                targets := artifacts }

/-- Model of `singleTarget.run` (tar.go lines 211-247): create the output file,
write every artifact of the group and every glob match, then append the
archive artifact to the store. The compression wrapper is a pass-through
stream. The returned state exposes the tar writer accounting that the
deferred `tw.Close()` would check; the code discards that close error. -/
def SingleTarget.runTarget (fs : Fs) (st : SingleTarget) (store : List Artifact) :
    Except TarError (List Artifact × ArchState) :=
  if !fs.createOk st.output then .error (.createError st.output)
  else
    let s0 : ArchState := { tw := { remaining := 0 }, dirsWritten := st.dirsWritten }
    match st.targets.foldlM (fun s a => writeArtifact fs st.context.targetDir st.commonDir s a) s0 with
    | .error e => .error e
    | .ok s1 =>
      match st.files.foldlM (fun s f => writeFileGlob fs st.context.targetDir st.commonDir s f) s1 with
      | .error e => .error e
      | .ok s2 =>
        .ok (store ++ [{ arch := st.arch
                         filename := st.output
                         format := FormatTar
                         location := st.output
                         name := st.name
                         os := st.os }], s2)

/-- Model of `tarRuntime.run` (tar.go lines 132-145): build and run one
`singleTarget` per group, threading the shared artifact store. -/
def TarRuntime.run (rt : TarRuntime) (fs : Fs) (render : Render) :
    Except TarError (List Artifact) :=
  rt.targets.foldlM
    (fun store kv =>
      match rt.singleTarget render kv.1 with
      | .error e => .error e
      | .ok st =>
        match st.runTarget fs store with
        | .error e => .error e
        | .ok (store2, _) => .ok store2)
    rt.context.artifacts

/-- Model of `Tar.Run` (tar.go lines 74-82): build the runtime, then run it. -/
def Tar.runModule (tar : Tar) (context : Context) (fs : Fs) (render : Render) :
    Except TarError (List Artifact) :=
  match newRuntime tar context with
  | .error e => .error e
  | .ok rt => rt.run fs render

/-! ## Concrete scenarios used by witnesses and counterexamples -/

/-- Identity renderer: a template without template references renders to
itself; all concrete scenarios below use reference-free templates. -/
def renderId : Render := fun _ _ s => .ok s

/-- A pluggable that succeeds leaving the context unchanged. -/
def plOk : Pluggable := fun c => .ok c

/-- A pluggable that always fails. -/
def plFail : Pluggable := fun _ => .error "boom"

/-- A decoder that keeps the factory default unchanged. -/
def decId : Decoder := fun _ p => .ok p

/-- Registry carrying one module registered as `build:x`. -/
def regBuildX : Registry :=
  fun k => if k = "build:x" then some (fun _ => plOk) else none

/-- Registry carrying one wildcard registration `*:y`. -/
def regStarY : Registry :=
  fun k => if k = "*:y" then some (fun _ => plOk) else none

/-- The empty registry. -/
def regNone : Registry := fun _ => none

/-- Build `server`, platform linux-amd64. -/
def artServerLinux : Artifact :=
  { arch := "amd64", filename := "server-linux", format := FormatRaw
    location := "", name := "server", os := "linux" }

/-- Build `cli`, platform linux-amd64. -/
def artCliLinux : Artifact :=
  { arch := "amd64", filename := "cli-linux", format := FormatRaw
    location := "", name := "cli", os := "linux" }

/-- Build `server`, platform darwin-amd64; `cli` never produced darwin. -/
def artServerDarwin : Artifact :=
  { arch := "amd64", filename := "server-darwin", format := FormatRaw
    location := "", name := "server", os := "darwin" }

/-- Tar configuration over build names server and cli. -/
def tarMismatch : Tar :=
  { builds := ["server", "cli"], commonDir := "", compressionExt := ""
    files := [], name := "archive", output := "out.tar", skip := [] }

/-- Store yielding groups linux-amd64 with 2 artifacts, darwin-amd64 with 1. -/
def ctxMismatch : Context :=
  { projectName := "proj", version := "1.0", targetDir := "", publish := false
    artifacts := [artServerLinux, artCliLinux, artServerDarwin] }

/-- A context whose artifact store is empty: zero os-arch groups. -/
def ctxEmpty : Context :=
  { projectName := "proj", version := "1.0", targetDir := "", publish := false
    artifacts := [] }

/-- A filesystem refusing everything; untouched in the zero-group scenario. -/
def fsEmpty : Fs :=
  { stat := fun _ => none, glob := fun _ => [], createOk := fun _ => false }

/-- An artifact whose file shrinks between stat and copy (see `fsTrunc`). -/
def artTrunc : Artifact :=
  { arch := "amd64", filename := "app", format := FormatRaw
    location := "", name := "default", os := "linux" }

/-- Tar configuration archiving the default build flat, with no globs. -/
def tarTrunc : Tar :=
  { builds := ["default"], commonDir := "", compressionExt := ""
    files := [], name := "archive", output := "out.tar", skip := [] }

/-- Context holding only the truncating artifact. -/
def ctxTrunc : Context :=
  { projectName := "proj", version := "1.0", targetDir := "", publish := false
    artifacts := [artTrunc] }

/-- Filesystem where `app` stats at 2 bytes but delivers 1 byte when read:
the file was truncated between stat and copy. -/
def fsTrunc : Fs :=
  { stat := fun p => if p = "app" then some { statSize := 2, content := 1, isDir := false } else none
    glob := fun _ => []
    createOk := fun _ => true }

/-- The archive artifact `singleTarget.run` appends in the `tarTrunc` run. -/
def artArchiveTrunc : Artifact :=
  { arch := "amd64", filename := "out.tar", format := FormatTar
    location := "out.tar", name := "archive", os := "linux" }

/-- One-artifact scenario with a consistent single group. -/
def artOne : Artifact :=
  { arch := "arm64", filename := "f", format := FormatRaw
    location := "", name := "default", os := "linux" }

/-- Tar configuration of the one-artifact scenario. -/
def tarOne : Tar :=
  { builds := ["default"], commonDir := "dir", compressionExt := ""
    files := [], name := "archive", output := "o.tar", skip := [] }

/-- Context of the one-artifact scenario. -/
def ctxOne : Context :=
  { projectName := "p", version := "v", targetDir := "", publish := false
    artifacts := [artOne] }

/-- Yaml scalar node for the key `type`. -/
def typeKeyNode : YamlNode := .node .scalar "type" []

/-- Yaml scalar node for the value `x`. -/
def typeValXNode : YamlNode := .node .scalar "x" []

/-- A mapping entry declaring a module of type `x`. -/
def entryXNode : YamlNode := .node .mapping "" [typeKeyNode, typeValXNode]

/-- A configuration sequence declaring two modules of type `x`. -/
def seqNode : YamlNode := .node .sequence "" [entryXNode, entryXNode]

/-- A publish-stage container whose skip predicate always fires and whose
only module would fail if it ever ran. -/
def modSkip : Modules :=
  { stage := "publish", skipFn := some (fun _ => true)
    modules := [Module.mk "boom" plFail], loaded := [] }

/-- The declared type of each entry of a configuration sequence, defined
exactly when every entry carries a `type` field; used to state source-order
preservation of the assembled container. -/
def entryTypes : List YamlNode → Option (List String)
  | [] => some []
  | c :: rest =>
    match getType c.content with
    | .error _ => none
    | .ok t => (entryTypes rest).map (fun ts => t :: ts)

/-! ## Lemmas about the module container -/

/-- A successful Add resolves some kind; the result container keeps the
stage and skip predicate, appends exactly one module carrying the
requested type, and flags the resolved kind loaded. -/
theorem add_ok_destruct (reg : Registry) (decode : Decoder) (mod : Modules)
    (t : String) (node : Option YamlNode) (once : Bool) (mod2 : Modules)
    (h : mod.Add reg decode t node once = .ok mod2) :
    ∃ K f p, resolveKind reg mod.stage t = some (K, f) ∧
      mod2.stage = mod.stage ∧ mod2.skipFn = mod.skipFn ∧
      mod2.modules = mod.modules ++ [Module.mk t p] ∧
      mod2.loaded = (if mod.loaded.contains K then mod.loaded else mod.loaded ++ [K]) := by
  unfold Modules.Add at h
  cases hres : resolveKind reg mod.stage t with
  | none => rw [hres] at h; cases h
  | some kf =>
    obtain ⟨K, f⟩ := kf
    rw [hres] at h
    split at h
    · cases h
    · rename_i kind factory heq
      injection heq with hpq
      cases hpq
      split at h
      · cases h
      · split at h
        · split at h
          · cases h
          · injection h with h2
            exact ⟨K, f, _, rfl, by rw [← h2]; rfl, by rw [← h2]; rfl,
              by rw [← h2]; rfl, by rw [← h2]; rfl⟩
        · injection h with h2
          exact ⟨K, f, f (), rfl, by rw [← h2]; rfl, by rw [← h2]; rfl,
            by rw [← h2]; rfl, by rw [← h2]; rfl⟩

/-- A successful Add flags its resolved kind loaded. -/
theorem add_ok_isLoaded (reg : Registry) (decode : Decoder) (mod : Modules)
    (t : String) (node : Option YamlNode) (once : Bool) (mod2 : Modules)
    (K : String) (f : PFactory)
    (hres : resolveKind reg mod.stage t = some (K, f))
    (h : mod.Add reg decode t node once = .ok mod2) :
    mod2.isLoaded K = true := by
  obtain ⟨K2, f2, p, hres2, _, _, _, hloaded⟩ :=
    add_ok_destruct reg decode mod t node once mod2 h
  rw [hres] at hres2
  injection hres2 with hpair
  cases hpair
  unfold Modules.isLoaded
  rw [hloaded]
  by_cases hc : mod.loaded.contains K
  · rw [if_pos hc]; exact hc
  · rw [if_neg hc]; simp [List.elem_iff]

/-- A successful Add keeps every previously loaded kind loaded, and keeps
the stage. -/
theorem add_ok_mono (reg : Registry) (decode : Decoder) (mod : Modules)
    (t : String) (node : Option YamlNode) (once : Bool) (mod2 : Modules)
    (h : mod.Add reg decode t node once = .ok mod2) :
    mod2.stage = mod.stage ∧ ∀ k, mod.isLoaded k = true → mod2.isLoaded k = true := by
  obtain ⟨K, f, p, _, hstage, _, _, hloaded⟩ :=
    add_ok_destruct reg decode mod t node once mod2 h
  refine ⟨hstage, fun k hk => ?_⟩
  unfold Modules.isLoaded at hk ⊢
  rw [hloaded]
  by_cases hc : mod.loaded.contains K
  · rw [if_pos hc]; exact hk
  · rw [if_neg hc]
    simp only [List.elem_iff] at hk ⊢
    exact List.mem_append_left _ hk

/-- Add with the once flag fails on a kind already loaded. -/
theorem add_loaded_fails (reg : Registry) (decode : Decoder) (mod : Modules)
    (t : String) (node : Option YamlNode) (K : String) (f : PFactory)
    (hres : resolveKind reg mod.stage t = some (K, f))
    (hl : mod.isLoaded K = true) :
    mod.Add reg decode t node true = .error (.alreadyLoaded K) := by
  unfold Modules.Add
  rw [hres]
  simp [hl]

/-! ## Claim theorems: module container -/

/-- C5: `Add` resolves the registry kind by probing the stage-qualified
kind first and the wildcard second, so a stage-specific registration wins
whenever it exists; when neither kind is registered, Add fails with an
unknown-module error naming both the stage and the type. A successful Add
flags the resolved kind loaded, tying the probe result to Add's behavior. -/
theorem add_resolution_order (reg : Registry) (decode : Decoder) (mod : Modules)
    (t : String) (node : Option YamlNode) (once : Bool) :
    (∀ f, reg (mod.stage ++ ":" ++ t) = some f →
        resolveKind reg mod.stage t = some (mod.stage ++ ":" ++ t, f)) ∧
    (reg (mod.stage ++ ":" ++ t) = none → ∀ f, reg ("*:" ++ t) = some f →
        resolveKind reg mod.stage t = some ("*:" ++ t, f)) ∧
    (reg (mod.stage ++ ":" ++ t) = none → reg ("*:" ++ t) = none →
        mod.Add reg decode t node once = .error (.unknownModule mod.stage t)) ∧
    (∀ K f mod2, resolveKind reg mod.stage t = some (K, f) →
        mod.Add reg decode t node once = .ok mod2 → mod2.isLoaded K = true) := by
  refine ⟨?_, ?_, ?_, ?_⟩
  · intro f hf; unfold resolveKind; rw [hf]
  · intro h1 f hf; unfold resolveKind; rw [h1, hf]
  · intro h1 h2; unfold Modules.Add resolveKind; rw [h1, h2]
  · intro K f mod2 hres hok
    exact add_ok_isLoaded reg decode mod t node once mod2 K f hres hok

/-- C5 witness: in an empty registry, adding type `x` to a build-stage
container fails with an unknown-module error naming stage and type. -/
theorem add_resolution_witness :
    Modules.Add regNone decId (NewModules "build") "x" none false =
      .error (.unknownModule "build" "x") :=
  (add_resolution_order regNone decId (NewModules "build") "x" none false).2.2.1 rfl rfl

/-- C6: within one container, adding with `once := true` twice for the
same resolved kind fails the second call with an already-loaded error,
while adding with `once := false` never fails with that error, however
often the kind was loaded before. -/
theorem add_once_guard :
    (∀ (reg : Registry) (decode : Decoder) (mod : Modules) (t : String)
        (node : Option YamlNode) (mod2 : Modules) (K : String) (f f2 : PFactory)
        (t2 : String) (node2 : Option YamlNode),
      resolveKind reg mod.stage t = some (K, f) →
      mod.Add reg decode t node true = .ok mod2 →
      resolveKind reg mod.stage t2 = some (K, f2) →
      mod2.Add reg decode t2 node2 true = .error (.alreadyLoaded K)) ∧
    (∀ (reg : Registry) (decode : Decoder) (mod : Modules) (t : String)
        (node : Option YamlNode) (k : String),
      mod.Add reg decode t node false ≠ .error (.alreadyLoaded k)) := by
  constructor
  · intro reg decode mod t node mod2 K f f2 t2 node2 hres hok hres2
    have hstage := (add_ok_mono reg decode mod t node true mod2 hok).1
    have hload := add_ok_isLoaded reg decode mod t node true mod2 K f hres hok
    exact add_loaded_fails reg decode mod2 t2 node2 K f2 (by rw [hstage]; exact hres2) hload
  · intro reg decode mod t node k h
    unfold Modules.Add at h
    cases hres : resolveKind reg mod.stage t with
    | none =>
      rw [hres] at h
      injection h with h2
      cases h2
    | some kf =>
      obtain ⟨K, f⟩ := kf
      rw [hres] at h
      split at h
      · injection h with h2; cases h2
      · rename_i kind factory heq
        injection heq with hpq
        cases hpq
        rw [if_neg (by simp)] at h
        split at h
        · split at h
          · injection h with h2; cases h2
          · cases h
        · cases h

/-- C6 witness: after loading `build:x` once, a second once-guarded Add of
the same resolved kind fails with the already-loaded error. -/
theorem add_once_guard_witness :
    Modules.Add regBuildX decId
      { stage := "build", skipFn := none
        modules := [Module.mk "x" plOk], loaded := ["build:x"] }
      "x" none true = .error (.alreadyLoaded "build:x") :=
  add_once_guard.1 regBuildX decId (NewModules "build") "x" none
    { stage := "build", skipFn := none
      modules := [Module.mk "x" plOk], loaded := ["build:x"] }
    "build:x" (fun _ => plOk) (fun _ => plOk) "x" none rfl rfl rfl

/-- C9: every successful Add flags its resolved kind loaded regardless of
the once flag, the loaded set only grows across successful Adds, and after
an Add with `once := false` resolving kind K, a later once-guarded Add
resolving K (default-module injection) fails with the already-loaded
error: default injection cannot duplicate a kind the configuration already
declared in that container. -/
theorem add_marks_loaded_monotone :
    (∀ (reg : Registry) (decode : Decoder) (mod : Modules) (t : String)
        (node : Option YamlNode) (once : Bool) (mod2 : Modules) (K : String) (f : PFactory),
      resolveKind reg mod.stage t = some (K, f) →
      mod.Add reg decode t node once = .ok mod2 → mod2.isLoaded K = true) ∧
    (∀ (reg : Registry) (decode : Decoder) (mod : Modules) (t : String)
        (node : Option YamlNode) (once : Bool) (mod2 : Modules) (k : String),
      mod.Add reg decode t node once = .ok mod2 →
      mod.isLoaded k = true → mod2.isLoaded k = true) ∧
    (∀ (reg : Registry) (decode : Decoder) (mod : Modules) (t : String)
        (node : Option YamlNode) (mod2 : Modules) (t2 : String)
        (node2 : Option YamlNode) (K : String) (f f2 : PFactory),
      resolveKind reg mod.stage t = some (K, f) →
      mod.Add reg decode t node false = .ok mod2 →
      resolveKind reg mod.stage t2 = some (K, f2) →
      mod2.Add reg decode t2 node2 true = .error (.alreadyLoaded K)) := by
  refine ⟨?_, ?_, ?_⟩
  · intro reg decode mod t node once mod2 K f hres hok
    exact add_ok_isLoaded reg decode mod t node once mod2 K f hres hok
  · intro reg decode mod t node once mod2 k hok hk
    exact (add_ok_mono reg decode mod t node once mod2 hok).2 k hk
  · intro reg decode mod t node mod2 t2 node2 K f f2 hres hok hres2
    have hstage := (add_ok_mono reg decode mod t node false mod2 hok).1
    have hload := add_ok_isLoaded reg decode mod t node false mod2 K f hres hok
    exact add_loaded_fails reg decode mod2 t2 node2 K f2 (by rw [hstage]; exact hres2) hload

/-- C9 witness: a user-declared entry loads the wildcard-resolved kind
`*:y` with `once := false`; the later once-guarded injection of the same
kind fails with the already-loaded error. -/
theorem add_marks_loaded_witness :
    Modules.Add regStarY decId
      { stage := "build", skipFn := none
        modules := [Module.mk "y" plOk], loaded := ["*:y"] }
      "y" none true = .error (.alreadyLoaded "*:y") :=
  add_marks_loaded_monotone.2.2 regStarY decId (NewModules "build") "y" none
    { stage := "build", skipFn := none
      modules := [Module.mk "y" plOk], loaded := ["*:y"] }
    "y" none "*:y" (fun _ => plOk) (fun _ => plOk) rfl rfl rfl

/-- C8: a stage whose skip predicate evaluates to true on the current
Build Context executes none of its modules, leaves the context (including
the artifact store) unchanged, and returns no error: Run yields exactly
the context it was given, whatever modules the container holds. -/
theorem skip_leaves_context_unchanged (mod : Modules) (context : Context)
    (f : Context → Bool) (hf : mod.skipFn = some f) (ht : f context = true) :
    mod.Run context = .ok context := by
  unfold Modules.Run
  rw [hf]
  simp [ht]

/-- C8 witness: a container whose only module would fail is skipped
entirely and returns the untouched context. -/
theorem skip_witness : modSkip.Run ctxEmpty = .ok ctxEmpty :=
  skip_leaves_context_unchanged modSkip ctxEmpty (fun _ => true) rfl rfl

/-- Sequences with all types declared have one declared type per entry. -/
theorem entryTypes_length :
    ∀ (l : List YamlNode) (ts : List String), entryTypes l = some ts → ts.length = l.length := by
  intro l
  induction l with
  | nil => intro ts h; injection h with h2; rw [← h2]; rfl
  | cons c rest ih =>
    intro ts h
    unfold entryTypes at h
    cases hg : getType c.content with
    | error e => rw [hg] at h; cases h
    | ok t =>
      rw [hg] at h
      cases hrest : entryTypes rest with
      | none => rw [hrest] at h; cases h
      | some ts2 =>
        rw [hrest] at h
        injection h with h2
        rw [← h2]
        simp [ih ts2 hrest]

/-- The entry loop of UnmarshalYAML appends, per entry, one module whose
type tag is the entry's declared type, in entry order. -/
theorem unmarshalLoop_spec (reg : Registry) (decode : Decoder) :
    ∀ (l : List YamlNode) (mod : Modules) (idx : Nat) (mod2 : Modules),
      unmarshalLoop reg decode mod idx l = .ok mod2 →
      ∃ ts, entryTypes l = some ts ∧
        mod2.modules.map Module.type = mod.modules.map Module.type ++ ts := by
  intro l
  induction l with
  | nil =>
    intro mod idx mod2 h
    injection h with h2
    exact ⟨[], rfl, by rw [← h2]; simp⟩
  | cons c rest ih =>
    intro mod idx mod2 h
    unfold unmarshalLoop at h
    split at h
    · cases h
    · split at h
      · cases h
      · rename_i t hg
        split at h
        · cases h
        · rename_i mod3 hadd
          obtain ⟨ts, hts, hmap⟩ := ih mod3 (idx + 1) mod2 h
          obtain ⟨K, f, p, _, _, _, hmods, _⟩ :=
            add_ok_destruct reg decode mod t (some c) false mod3 hadd
          refine ⟨t :: ts, ?_, ?_⟩
          · simp [entryTypes, hg, hts]
          · rw [hmap, hmods]
            simp

/-- C7: for every configuration sequence whose entries all decode
successfully, the assembled container holds exactly one module per
declared entry, and the module type tags appear in the same order as the
entries of the source document. -/
theorem unmarshal_preserves_entries (reg : Registry) (decode : Decoder)
    (stage : String) (node : YamlNode) (mod2 : Modules)
    (h : (NewModules stage).UnmarshalYAML reg decode node = .ok mod2) :
    mod2.modules.length = node.content.length ∧
      entryTypes node.content = some (mod2.modules.map Module.type) := by
  unfold Modules.UnmarshalYAML at h
  by_cases hk : node.kind ≠ YamlKind.sequence
  · rw [if_pos hk] at h; cases h
  · rw [if_neg hk] at h
    obtain ⟨ts, hts, hmap⟩ :=
      unmarshalLoop_spec reg decode node.content (NewModules stage) 0 mod2 h
    have hts2 : mod2.modules.map Module.type = ts := by
      rw [hmap]; simp [NewModules]
    constructor
    · have h1 : (mod2.modules.map Module.type).length = mod2.modules.length := by simp
      rw [← h1, hts2, entryTypes_length node.content ts hts]
    · rw [hts, hts2]

/-- C7 witness: a sequence of two entries of declared type `x` assembles a
container of exactly two modules tagged `x` in order. -/
theorem unmarshal_preserves_entries_witness :
    (2 : Nat) = seqNode.content.length ∧
      entryTypes seqNode.content = some ["x", "x"] := by
  have h := unmarshal_preserves_entries regBuildX decId "build" seqNode
    { stage := "build", skipFn := none
      modules := [Module.mk "x" plOk, Module.mk "x" plOk], loaded := ["build:x"] }
    rfl
  exact ⟨h.1, h.2⟩

/-! ## Lemmas about the archive grouping and validation -/

/-- Folding preserves an invariant preserved by each step. -/
theorem foldl_preserve {α β : Type} (P : α → Prop) (f : α → β → α)
    (hf : ∀ a b, P a → P (f a b)) :
    ∀ (l : List β) (init : α), P init → P (l.foldl f init)
  | [], _, hp => hp
  | b :: l, init, hp => foldl_preserve P f hf l (f init b) (hf init b hp)

/-- A group update never creates an empty group. -/
theorem addToGroup_values_ne_nil (k : String) (a : Artifact) :
    ∀ (l : List (String × List Artifact)), (∀ p ∈ l, p.2 ≠ []) →
      ∀ p ∈ addToGroup l k a, p.2 ≠ [] := by
  intro l
  induction l with
  | nil =>
    intro _ p hp
    simp only [addToGroup, List.mem_singleton] at hp
    subst hp
    simp
  | cons q rest ih =>
    intro hl p hp
    obtain ⟨k2, g⟩ := q
    unfold addToGroup at hp
    by_cases hk : k2 = k
    · rw [if_pos hk] at hp
      rcases List.mem_cons.mp hp with h | h
      · subst h; simp
      · exact hl p (List.mem_cons_of_mem _ h)
    · rw [if_neg hk] at hp
      rcases List.mem_cons.mp hp with h | h
      · subst h; exact hl (k2, g) (List.mem_cons_self _ _)
      · exact ih (fun r hr => hl r (List.mem_cons_of_mem _ hr)) p h

/-- Every group the grouping loop of newRuntime builds is non-empty,
because a group is created only when its first artifact is appended. -/
theorem groupArtifacts_values_ne_nil (tar : Tar) (arts : List Artifact) :
    ∀ p ∈ groupArtifacts tar arts, p.2 ≠ [] := by
  unfold groupArtifacts
  refine foldl_preserve
    (fun bs : List (String × List Artifact) => ∀ p ∈ bs, p.2 ≠ []) _ ?_ tar.builds [] (by simp)
  intro bs build hbs
  refine foldl_preserve
    (fun bs : List (String × List Artifact) => ∀ p ∈ bs, p.2 ≠ []) _ ?_ (byName arts build) bs hbs
  intro bs2 art hbs2
  by_cases hskip : tar.skip.contains art.osArch = true
  · rw [if_pos hskip]
    exact hbs2
  · rw [if_neg hskip]
    exact addToGroup_values_ne_nil art.osArch art bs2 hbs2

/-- With a nonzero reference count, the count loop passes exactly when
every remaining group carries that count. -/
theorem checkLoop_none_iff (B : List (String × List Artifact)) :
    ∀ (l : List (String × List Artifact)) (n : Nat) (last : String), n ≠ 0 →
      (checkLoop B l n last = none ↔ ∀ p ∈ l, p.2.length = n) := by
  intro l
  induction l with
  | nil => intro n last hn; simp [checkLoop]
  | cons q rest ih =>
    intro n last hn
    obtain ⟨osarch, g⟩ := q
    rw [show checkLoop B ((osarch, g) :: rest) n last =
      (if n = 0 then checkLoop B rest g.length osarch
       else if n < g.length then some (errNumTargets last osarch B)
       else if g.length < n then some (errNumTargets osarch last B)
       else checkLoop B rest n last) from rfl]
    rw [if_neg hn]
    by_cases h1 : n < g.length
    · rw [if_pos h1]
      constructor
      · intro hc; cases hc
      · intro hall
        exfalso
        have := hall (osarch, g) (List.mem_cons_self _ _)
        simp only at this
        omega
    · rw [if_neg h1]
      by_cases h2 : g.length < n
      · rw [if_pos h2]
        constructor
        · intro hc; cases hc
        · intro hall
          exfalso
          have := hall (osarch, g) (List.mem_cons_self _ _)
          simp only at this
          omega
      · rw [if_neg h2]
        rw [ih n last hn]
        constructor
        · intro hall p hp
          rcases List.mem_cons.mp hp with h | h
          · subst h
            simp only
            omega
          · exact hall p h
        · intro hall p hp
          exact hall p (List.mem_cons_of_mem _ hp)

/-- The validation of newRuntime passes exactly when all groups carry
equal artifact counts, given that all groups are non-empty. -/
theorem checkLoop_start_none_iff (B : List (String × List Artifact))
    (hne : ∀ p ∈ B, p.2 ≠ []) :
    checkLoop B B 0 "" = none ↔ ∀ p ∈ B, ∀ q ∈ B, p.2.length = q.2.length := by
  cases B with
  | nil => simp [checkLoop]
  | cons q rest =>
    obtain ⟨k, g⟩ := q
    have hg : g ≠ [] := hne (k, g) (List.mem_cons_self _ _)
    have hgl : g.length ≠ 0 := by
      intro hc
      exact hg (List.length_eq_zero.mp hc)
    have hstep : checkLoop ((k, g) :: rest) ((k, g) :: rest) 0 "" =
        checkLoop ((k, g) :: rest) rest g.length k := by
      rw [show checkLoop ((k, g) :: rest) ((k, g) :: rest) 0 "" =
        (if (0 : Nat) = 0 then checkLoop ((k, g) :: rest) rest g.length k
         else if 0 < g.length then some (errNumTargets "" k ((k, g) :: rest))
         else if g.length < 0 then some (errNumTargets k "" ((k, g) :: rest))
         else checkLoop ((k, g) :: rest) rest 0 "") from rfl]
      rw [if_pos rfl]
    rw [hstep, checkLoop_none_iff ((k, g) :: rest) rest g.length k hgl]
    constructor
    · intro hall p hp q2 hq2
      have key : ∀ r ∈ (k, g) :: rest, r.2.length = g.length := by
        intro r hr
        rcases List.mem_cons.mp hr with h | h
        · subst h; rfl
        · exact hall r h
      rw [key p hp, key q2 hq2]
    · intro hall p hp
      have := hall p (List.mem_cons_of_mem _ hp) (k, g) (List.mem_cons_self _ _)
      simpa using this

/-- A key present in the association list has a lookup result that is
itself one of the stored groups under that key. -/
theorem lookupGroup_eq_some_of_mem :
    ∀ (l : List (String × List Artifact)) (k : String) (g : List Artifact),
      (k, g) ∈ l → ∃ g2, lookupGroup l k = some g2 ∧ (k, g2) ∈ l := by
  intro l
  induction l with
  | nil => intro k g h; cases h
  | cons q rest ih =>
    intro k g h
    obtain ⟨k2, g2⟩ := q
    by_cases hk : k2 = k
    · refine ⟨g2, by simp [lookupGroup, hk], ?_⟩
      subst hk
      exact List.mem_cons_self _ _
    · rcases List.mem_cons.mp h with h2 | h2
      · exfalso
        apply hk
        injection h2 with ha hb
        exact ha.symm
      · obtain ⟨g3, hl, hm⟩ := ih k g h2
        exact ⟨g3, by simp [lookupGroup, hk, hl], List.mem_cons_of_mem _ hm⟩

/-! ## Claim theorems: archiving engine -/

/-- C1: the grouping/validation step of the archiving engine fails exactly
when at least two non-excluded os-arch groups hold different numbers of
artifacts; when all group counts agree it succeeds and returns a runtime
holding exactly the grouped artifacts. -/
theorem newRuntime_error_iff_counts_differ (tar : Tar) (context : Context) :
    ((∃ e, newRuntime tar context = .error e) ↔
      ∃ p ∈ groupArtifacts tar context.artifacts,
        ∃ q ∈ groupArtifacts tar context.artifacts, p.2.length ≠ q.2.length) ∧
    ((∀ p ∈ groupArtifacts tar context.artifacts,
        ∀ q ∈ groupArtifacts tar context.artifacts, p.2.length = q.2.length) →
      newRuntime tar context =
        .ok { tar := tar, context := context
              targets := groupArtifacts tar context.artifacts }) := by
  have hiff := checkLoop_start_none_iff (groupArtifacts tar context.artifacts)
    (groupArtifacts_values_ne_nil tar context.artifacts)
  have hnr : newRuntime tar context =
      match checkLoop (groupArtifacts tar context.artifacts)
          (groupArtifacts tar context.artifacts) 0 "" with
      | some e => .error e
      | none => .ok { tar := tar, context := context
                      targets := groupArtifacts tar context.artifacts } := rfl
  constructor
  · constructor
    · rintro ⟨e, he⟩
      by_contra hno
      push_neg at hno
      rw [hnr, hiff.mpr hno] at he
      cases he
    · intro hex
      cases hc : checkLoop (groupArtifacts tar context.artifacts)
          (groupArtifacts tar context.artifacts) 0 "" with
      | none =>
        exfalso
        obtain ⟨p, hp, q, hq, hne2⟩ := hex
        exact hne2 (hiff.mp hc p hp q hq)
      | some e =>
        exact ⟨e, by rw [hnr, hc]⟩
  · intro hall
    rw [hnr, hiff.mpr hall]

/-- C1 witness: a store producing a single one-artifact group has all
group counts equal; newRuntime succeeds holding exactly that group. -/
theorem newRuntime_counts_witness :
    newRuntime tarOne ctxOne =
      .ok { tar := tarOne, context := ctxOne
            targets := groupArtifacts tarOne ctxOne.artifacts } :=
  (newRuntime_error_iff_counts_differ tarOne ctxOne).2 (by decide)

/-- C2 counterexample: on artifact groups linux-amd64 (2 artifacts) and
darwin-amd64 (1 artifact) over build names server and cli, the engine
fails with `missingTargets "darwin-amd64" ["linux-amd64"]`: the diagnostic
carries only os-arch keys; neither build name appears anywhere in it, so
it does not identify the build names missing from the deficient group. -/
theorem errNumTargets_no_build_names :
    newRuntime tarMismatch ctxMismatch =
        .error (.missingTargets "darwin-amd64" ["linux-amd64"]) ∧
      "server" ∉ ["linux-amd64"] ∧ "cli" ∉ ["linux-amd64"] ∧
      "server" ≠ "darwin-amd64" ∧ "cli" ≠ "darwin-amd64" :=
  ⟨rfl, by decide, by decide, by decide, by decide⟩

/-- C2 amended: when the count validation fails, the diagnostic names the
deficient group's os-arch as bad and lists the os-arch keys collected from
the good group's artifacts (which all equal the good group's own key), not
build names; on the linux-amd64/darwin-amd64 example it reports
darwin-amd64 as missing the os-arch target linux-amd64. -/
theorem errNumTargets_reports_osarch :
    newRuntime tarMismatch ctxMismatch =
        .error (.missingTargets "darwin-amd64" ["linux-amd64"]) ∧
      (groupArtifacts tarMismatch ctxMismatch.artifacts).map Prod.fst =
        ["linux-amd64", "darwin-amd64"] ∧
      (lookupGroup (groupArtifacts tarMismatch ctxMismatch.artifacts) "linux-amd64").map
          (fun g => g.map Artifact.osArch) = some ["linux-amd64", "linux-amd64"] :=
  ⟨rfl, rfl, rfl⟩

/-- C3 evidence: with zero os-arch groups (no artifact matches the
configured build names) the engine does not fail: grouping is empty,
newRuntime succeeds with an empty target map, and the whole run returns
success without touching the filesystem or the store. The distinct
no-builds-found error exists in errNumTargets, but that function is only
reached when two groups' counts differ, which requires two groups. -/
theorem zero_groups_run_succeeds :
    groupArtifacts NewTar ctxEmpty.artifacts = [] ∧
      newRuntime NewTar ctxEmpty =
        .ok { tar := NewTar, context := ctxEmpty, targets := [] } ∧
      Tar.runModule NewTar ctxEmpty fsEmpty renderId = .ok [] ∧
      errNumTargets "" "" [] = .noBuildsFound :=
  ⟨rfl, rfl, rfl, rfl⟩

/-- C4 evidence: the source file `app` stats at 2 bytes but delivers only
1 byte: it was truncated between stat and copy. The run succeeds and
appends the archive artifact, because writeFile fails only when the copy
itself errors; the missing byte survives only in the tar writer
accounting, and the deferred Close that would report it (error 1) is
discarded by singleTarget.run. The archive is silently truncated. -/
theorem short_copy_run_succeeds :
    Tar.runModule tarTrunc ctxTrunc fsTrunc renderId =
        .ok [artTrunc, artArchiveTrunc] ∧
      writeFile fsTrunc { remaining := 0 } "app" "app" = .ok { remaining := 1 } ∧
      (∃ st, TarRuntime.singleTarget
          { tar := tarTrunc, context := ctxTrunc, targets := [("linux-amd64", [artTrunc])] }
          renderId "linux-amd64" = .ok st ∧
        st.runTarget fsTrunc ctxTrunc.artifacts =
          .ok ([artTrunc, artArchiveTrunc],
            { tw := { remaining := 1 }, dirsWritten := [] })) ∧
      twClose { remaining := 1 } = .error 1 :=
  ⟨rfl, rfl, ⟨_, rfl, rfl⟩, rfl⟩

/-- C10: every os-arch group stored in a runtime produced by newRuntime is
non-empty (a group is created only at the moment an artifact is appended
to it), hence singleTarget's empty-target error branch cannot fire for any
group key of such a runtime. -/
theorem runtime_groups_nonempty (tar : Tar) (context : Context) (rt : TarRuntime)
    (h : newRuntime tar context = .ok rt) :
    (∀ p ∈ rt.targets, p.2 ≠ []) ∧
    (∀ (render : Render) (osarch : String) (g : List Artifact),
      (osarch, g) ∈ rt.targets →
      rt.singleTarget render osarch ≠ .error (.emptyTarget osarch)) := by
  have htargets : rt.targets = groupArtifacts tar context.artifacts := by
    have hnr : newRuntime tar context =
        match checkLoop (groupArtifacts tar context.artifacts)
            (groupArtifacts tar context.artifacts) 0 "" with
        | some e => .error e
        | none => .ok { tar := tar, context := context
                        targets := groupArtifacts tar context.artifacts } := rfl
    rw [hnr] at h
    split at h
    · cases h
    · injection h with h2
      rw [← h2]
  have hne : ∀ p ∈ rt.targets, p.2 ≠ [] := by
    rw [htargets]
    exact groupArtifacts_values_ne_nil tar context.artifacts
  refine ⟨hne, ?_⟩
  intro render osarch g hmem hcontra
  obtain ⟨g2, hl, hm⟩ := lookupGroup_eq_some_of_mem rt.targets osarch g hmem
  have hg2 : g2 ≠ [] := hne (osarch, g2) hm
  unfold TarRuntime.singleTarget at hcontra
  rw [hl] at hcontra
  cases g2 with
  | nil => exact hg2 rfl
  | cons first rest =>
    dsimp only at hcontra
    split at hcontra
    · injection hcontra with h2; cases h2
    · split at hcontra
      · injection hcontra with h2; cases h2
      · cases hcontra

/-- C10 witness: the runtime of the one-artifact scenario rejects the
empty-target error for its only group key. -/
theorem runtime_groups_nonempty_witness :
    TarRuntime.singleTarget
        { tar := tarOne, context := ctxOne, targets := [("linux-arm64", [artOne])] }
        renderId "linux-arm64" ≠ .error (.emptyTarget "linux-arm64") :=
  (runtime_groups_nonempty tarOne ctxOne
      { tar := tarOne, context := ctxOne, targets := [("linux-arm64", [artOne])] } rfl).2
    renderId "linux-arm64" [artOne] (by decide)

end Magelib
